import Mathlib

/-!
Shallow embedding of the core of `lispd/lispd_lib.c` (LISP mobile-node daemon,
control-plane library routines): the tagged dual-stack address representation,
AFI translation, prefix/network-address arithmetic, wire extraction of
addresses, the control-message dispatcher, and the FQDN / prefix-string
parsing helpers.

An address (`lisp_addr_t`) is a C struct holding an `int afi` discriminator
and a 16-byte union (`struct in_addr` occupies the first 4 bytes,
`struct in6_addr` all 16).  We model it as an `afi : Int` together with the
16 bytes of union storage, each byte a `Nat` (< 256 for well-formed data).
`ntohl`/`htonl` on a stored 32-bit word are modelled by reading/writing the
4 bytes in network (big-endian) order, which is endian-neutral and matches
what the C code computes on any host.
-/

/-- Host address families, as used by the C code (`<sys/socket.h>` on Linux). -/
def AF_UNSPEC : Int := 0

/-- Host address family for IPv4 (`AF_INET` on Linux). -/
def AF_INET : Int := 2

/-- Host address family for IPv6 (`AF_INET6` on Linux). -/
def AF_INET6 : Int := 10

/-- Modelled from the spec: wire AFI tag for "no address" (spec section 6 fixes the
wire values: 0 = no address, 1 = IPv4, 2 = IPv6, a reserved high value = LCAF).
The numeric constants live in `lispd.h`, which is not under `src/`. -/
def LISP_AFI_NO_ADDR : Int := 0

/-- Modelled from the spec: wire AFI tag for IPv4 (value 1, spec section 6). -/
def LISP_AFI_IP : Int := 1

/-- Modelled from the spec: wire AFI tag for IPv6 (value 2, spec section 6). -/
def LISP_AFI_IPV6 : Int := 2

/-- Modelled from the spec: the reserved high AFI value for LCAF (extended
encoding); 16387 in `lispd.h`, which is not under `src/`. -/
def LISP_AFI_LCAF : Int := 16387

/-- Modelled from the spec: success sentinel `GOOD` of `lispd.h` (not under `src/`). -/
def GOOD : Int := 1

/-- Modelled from the spec: failure sentinel `BAD` of `lispd.h` (not under `src/`). -/
def BAD : Int := 0

/-- Modelled from the spec: boolean `TRUE` of `lispd.h` (not under `src/`). -/
def TRUE : Int := 1

/-- Modelled from the spec: boolean `FALSE` of `lispd.h` (not under `src/`). -/
def FALSE : Int := 0

/-- Modelled from the spec: the `ERR_AFI` error sentinel of `lispd.h`
(not under `src/`); a negative value distinct from every `AF_*` constant. -/
def ERR_AFI : Int := -5

/-- The C `lisp_addr_t`: an `int afi` discriminator plus the 16 bytes of the
address union (`address.ip` is bytes 0..3, `address.ipv6` is bytes 0..15). -/
structure LispAddr where
  afi : Int
  bytes : List Nat
  deriving DecidableEq

/-- Byte `i` of a byte list, 0 when out of range (union storage reads). -/
def byteAt (bs : List Nat) (i : Nat) : Nat := bs.getD i 0

/-- `ntohl` of the 32-bit word stored at the head of a byte list: the bytes in
network order assembled big-endian into a value. (16777216 = 2^24, 65536 = 2^16.) -/
def ntohl4 (bs : List Nat) : Nat :=
  byteAt bs 0 * 16777216 + byteAt bs 1 * 65536 + byteAt bs 2 * 256 + byteAt bs 3

/-- `htonl`: store a 32-bit value as 4 bytes in network (big-endian) order. -/
def wordBytes (v : Nat) : List Nat :=
  [v / 16777216 % 256, v / 65536 % 256, v / 256 % 256, v % 256]

/-- `ntohl(x.s6_addr32[k])`: host-order value of the `k`-th stored 32-bit word. -/
def word (bs : List Nat) (k : Nat) : Nat := ntohl4 (bs.drop (4 * k))

/-- The IPv4 mask of `get_network_address_v4`:
`mask = 0xFFFFFFFF; if (prefix_length != 0) mask <<= (32 - prefix_length); else mask = 0;`
(the shift is on a 32-bit unsigned, hence the `% 2^32`). -/
def mask4 (prefix_length : Int) : Nat :=
  if prefix_length ≠ 0 then (0xFFFFFFFF <<< (32 - prefix_length).toNat) % 4294967296
  else 0

/-- `get_network_address_v4` (lispd_lib.c:1406): result is `{.afi=AF_INET}` with a
zero-initialized union, then `s_addr = htonl(ntohl(s_addr) & mask)`. -/
def get_network_address_v4 (address : LispAddr) (prefix_length : Int) : LispAddr :=
  { afi := AF_INET
    bytes := wordBytes (word address.bytes 0 &&& mask4 prefix_length) ++ List.replicate 12 0 }

/-- The per-word IPv6 mask array of `get_network_address_v6`: with
`a = prefix_length / 32` and `b = prefix_length % 32`, words below `a` are fully
set, word `a` gets its top `b` bits when `b != 0`, later words are zero. -/
def mask6 (prefix_length : Int) (ctr : Nat) : Nat :=
  if (ctr : Int) < prefix_length / 32 then 0xFFFFFFFF
  else if prefix_length % 32 ≠ 0 ∧ (ctr : Int) = prefix_length / 32 then
    (0xFFFFFFFF <<< (32 - prefix_length % 32).toNat) % 4294967296
  else 0

/-- `get_network_address_v6` (lispd_lib.c:1424): for each of the four stored words,
`s6_addr32[ctr] = htonl(ntohl(s6_addr32[ctr]) & mask[ctr])`. -/
def get_network_address_v6 (address : LispAddr) (prefix_length : Int) : LispAddr :=
  { afi := AF_INET6
    bytes :=
      wordBytes (word address.bytes 0 &&& mask6 prefix_length 0) ++
      wordBytes (word address.bytes 1 &&& mask6 prefix_length 1) ++
      wordBytes (word address.bytes 2 &&& mask6 prefix_length 2) ++
      wordBytes (word address.bytes 3 &&& mask6 prefix_length 3) }

/-- `get_network_address` (lispd_lib.c:1384): dispatch on the family; an
unsupported family yields the zero-initialized `{.afi = AF_UNSPEC}` value. -/
def get_network_address (address : LispAddr) (prefix_length : Int) : LispAddr :=
  if address.afi = AF_INET then get_network_address_v4 address prefix_length
  else if address.afi = AF_INET6 then get_network_address_v6 address prefix_length
  else { afi := AF_UNSPEC, bytes := List.replicate 16 0 }

/-- C `memcmp` over byte sequences of equal length: sign of the first
differing byte, 0 if none differs. -/
def memcmpBytes : List Nat → List Nat → Int
  | [], _ => 0
  | _, [] => 0
  | x :: xs, y :: ys =>
    if x < y then -1
    else if y < x then 1
    else memcmpBytes xs ys

/-- The tail of `compare_lisp_addr_t`: `cmp == 0 ↦ 0`, `cmp > 0 ↦ 1`, else `2`. -/
def cmpResult (cmp : Int) : Int :=
  if cmp = 0 then 0 else if cmp > 0 then 1 else 2

/-- `compare_lisp_addr_t` (lispd_lib.c:942).  A NULL argument is modelled as
`none`.  Returns -1 on a NULL argument, family mismatch or non-IP family;
otherwise 0 / 1 / 2 from `memcmp` over the 4 (v4) or 16 (v6) address bytes. -/
def compare_lisp_addr_t (addr1 addr2 : Option LispAddr) : Int :=
  match addr1, addr2 with
  | none, _ => -1
  | _, none => -1
  | some a1, some a2 =>
    if a1.afi ≠ a2.afi then -1
    else if a1.afi = AF_INET then cmpResult (memcmpBytes (a1.bytes.take 4) (a2.bytes.take 4))
    else if a1.afi = AF_INET6 then cmpResult (memcmpBytes (a1.bytes.take 16) (a2.bytes.take 16))
    else -1

/-- `is_prefix_b_part_of_a` (lispd_lib.c:1357): family mismatch or a more
specific outer length rejects; otherwise build both network addresses at the
outer length and test them for equality with `compare_lisp_addr_t`. -/
def is_prefix_b_part_of_a (pa : LispAddr) (a_len : Int) (pb : LispAddr) (b_len : Int) : Int :=
  if pa.afi ≠ pb.afi then FALSE
  else if a_len > b_len then FALSE
  else if compare_lisp_addr_t (some (get_network_address pa a_len))
            (some (get_network_address pb a_len)) = 0 then TRUE
  else FALSE

/-- `lisp2inetafi` (lispd_lib.c:1040): wire AFI tag to host family; LCAF maps to
the LCAF tag itself, anything else to the `ERR_AFI` sentinel.  The C argument is
a `uint16_t`; callers only ever pass values below 2^16. -/
def lisp2inetafi (afi : Int) : Int :=
  if afi = LISP_AFI_NO_ADDR then AF_UNSPEC
  else if afi = LISP_AFI_IP then AF_INET
  else if afi = LISP_AFI_IPV6 then AF_INET6
  else if afi = LISP_AFI_LCAF then LISP_AFI_LCAF
  else ERR_AFI

/-- `inet2lispafi` (lispd_lib.c:1061): host family to wire AFI tag; an unknown
family falls through to `return (0)`. -/
def inet2lispafi (afi : Int) : Int :=
  if afi = AF_UNSPEC then LISP_AFI_NO_ADDR
  else if afi = AF_INET then LISP_AFI_IP
  else if afi = AF_INET6 then LISP_AFI_IPV6
  else if afi = LISP_AFI_LCAF then LISP_AFI_LCAF
  else 0

/-- `ntohs` of the leading 2 bytes of a buffer (network byte order). -/
def ntohsBytes (bs : List Nat) : Nat := byteAt bs 0 * 256 + byteAt bs 1

/-- Which diagnostic `extract_lisp_address` logs: none, the LCAF message
("Couldn't process lcaf address") or the unknown-family message. -/
inductive ExtractLog where
  | noLog
  | lcafLog
  | unknownLog
  deriving DecidableEq

/-- Result of `extract_lisp_address`: the returned code, the out-parameter
`lisp_addr_t` and the diagnostic branch taken. -/
structure ExtractOut where
  result : Int
  addr : LispAddr
  log : ExtractLog
  deriving DecidableEq

/-- `extract_lisp_address` (lispd_lib.c:1303): read the 2-byte AFI tag, map it
with `lisp2inetafi` into `addr->afi`, then copy 4 bytes (v4, into the first 4
union bytes), 16 bytes (v6), nothing (no-address), or fail with `ERR_AFI`
for an LCAF tag or an unknown tag.  `addr0` is the prior content of the
out-parameter; bytes the C code does not write keep their prior value. -/
def extract_lisp_address (ptr : List Nat) (addr0 : LispAddr) : ExtractOut :=
  let afi := lisp2inetafi (ntohsBytes ptr)
  if afi = AF_INET then
    ⟨GOOD, ⟨afi, (ptr.drop 2).take 4 ++ addr0.bytes.drop 4⟩, ExtractLog.noLog⟩
  else if afi = AF_INET6 then
    ⟨GOOD, ⟨afi, (ptr.drop 2).take 16⟩, ExtractLog.noLog⟩
  else if afi = AF_UNSPEC then
    ⟨GOOD, ⟨afi, addr0.bytes⟩, ExtractLog.noLog⟩
  else if afi = LISP_AFI_LCAF then
    ⟨ERR_AFI, ⟨afi, addr0.bytes⟩, ExtractLog.lcafLog⟩
  else
    ⟨ERR_AFI, ⟨afi, addr0.bytes⟩, ExtractLog.unknownLog⟩

/-- Modelled from the spec: LISP control-message type tags (spec section 4.4,
section 6); the numeric values are in `lispd.h`, not under `src/`. -/
def LISP_MAP_REQUEST : Nat := 1

/-- Modelled from the spec: Map-Reply message type tag. -/
def LISP_MAP_REPLY : Nat := 2

/-- Modelled from the spec: Map-Register message type tag. -/
def LISP_MAP_REGISTER : Nat := 3

/-- Modelled from the spec: Map-Notify message type tag. -/
def LISP_MAP_NOTIFY : Nat := 4

/-- Modelled from the spec: Map-Referral message type tag. -/
def LISP_MAP_REFERRAL : Nat := 6

/-- Modelled from the spec: Info-Request/Info-Reply (NAT) message type tag. -/
def LISP_INFO_NAT : Nat := 7

/-- Modelled from the spec: Encapsulated-Control-Message type tag. -/
def LISP_ENCAP_CONTROL_TYPE : Nat := 8

/-- Outcomes of the external per-type handlers (`process_map_request_msg`,
`process_map_reply`, `process_map_notify`, `process_map_referral`,
`process_info_nat_msg`): each is an abstract return code supplied as input. -/
structure Handlers where
  mapRequestRes : Int
  mapReplyRes : Int
  mapNotifyRes : Int
  mapReferralRes : Int
  infoNatRes : Int

/-- Identifies which external handler the dispatcher invoked. -/
inductive HandlerCall where
  | mapRequest
  | mapReply
  | mapNotify
  | mapReferral
  | infoNat
  deriving DecidableEq

/-- `process_lisp_ctr_msg` (lispd_lib.c:1203).  `recv` models the result of
`get_packet_and_socket_inf` (`none` = failure, `some packet` = the datagram).
The message type is the high nibble of the first payload byte (modelled from
the spec, section 6: the header struct is in a header not under `src/`).
Returns the dispatcher's return code together with the list of handler
invocations it performed. -/
def process_lisp_ctr_msg (recv : Option (List Nat)) (h : Handlers) : Int × List HandlerCall :=
  match recv with
  | none => (BAD, [])
  | some packet =>
    let ty := byteAt packet 0 / 16
    if ty = LISP_MAP_REQUEST then
      (if h.mapRequestRes ≠ GOOD then BAD else GOOD, [HandlerCall.mapRequest])
    else if ty = LISP_MAP_REPLY then
      (if h.mapReplyRes ≠ GOOD then BAD else GOOD, [HandlerCall.mapReply])
    else if ty = LISP_MAP_REGISTER then
      (GOOD, [])
    else if ty = LISP_MAP_NOTIFY then
      (if h.mapNotifyRes ≠ GOOD then BAD else GOOD, [HandlerCall.mapNotify])
    else if ty = LISP_MAP_REFERRAL then
      (if h.mapReferralRes ≠ GOOD then BAD else GOOD, [HandlerCall.mapReferral])
    else if ty = LISP_INFO_NAT then
      (if h.infoNatRes ≠ GOOD then BAD else GOOD, [HandlerCall.infoNat])
    else if ty = LISP_ENCAP_CONTROL_TYPE then
      (if h.mapRequestRes ≠ GOOD then BAD else GOOD, [HandlerCall.mapRequest])
    else
      (GOOD, [])

/-- The character `s[i]` of a C string modelled as a char list: positions past
the end read the NUL terminator. -/
def charAt (s : List Char) (i : Nat) : Char := s.getD i (Char.ofNat 0)

/-- The scan loop of `isfqdn` (lispd_lib.c:595): starting at index 1, walk until
NUL or `,`; on a dot check the previous character is not a dot; every character
must be alphanumeric, `-` or `.`.  We walk the suffix list carrying the
previous character (`prev`, which is `s[i-1]`) and the dot-seen flag; `none`
models the early `return(FALSE)` exits, `some (last, dot)` models falling out
of the loop with `last = s[i-1]`. -/
def isfqdnScan : List Char → Char → Bool → Option (Char × Bool)
  | [], prev, dot => some (prev, dot)
  | c :: rest, prev, dot =>
    if c = Char.ofNat 0 ∨ c = ',' then some (prev, dot)
    else if c = '.' ∧ prev = '.' then none
    else if ¬ (c.isAlphanum ∨ c = '-' ∨ c = '.') then none
    else isfqdnScan rest c (dot || c = '.')

/-- `isfqdn` (lispd_lib.c:585): the first character must be alphanumeric and the
string must not contain `:` (`strchr`); then the scan loop runs from index 1;
finally the first character must not be `.`, the last scanned character must
not be `.` and must be alphabetic, and at least one dot must have been seen. -/
def isfqdn (s : List Char) : Int :=
  if ¬ (charAt s 0).isAlphanum ∨ s.contains ':' then BAD
  else
    match isfqdnScan (s.drop 1) (charAt s 0) false with
    | none => FALSE
    | some (last, dot) =>
      if charAt s 0 = '.' ∨ last = '.' ∨ ¬ last.isAlpha then FALSE
      else if dot then TRUE else FALSE

/-- `get_afi` (lispd_lib.c:321): a colon anywhere means IPv6, otherwise IPv4. -/
def get_afi (s : List Char) : Int :=
  if s.contains ':' then AF_INET6 else AF_INET

/-- First `strtok(address, "/")`: skip leading delimiters; `none` when no token
remains, otherwise the token and the rest of the string. -/
def strtokFirst (s : List Char) : Option (List Char × List Char) :=
  let s1 := s.dropWhile (fun c => c = '/')
  if s1 = [] then none
  else some (s1.takeWhile (fun c => c ≠ '/'), s1.dropWhile (fun c => c ≠ '/'))

/-- Subsequent `strtok(NULL, "/")` on the remaining string. -/
def strtokNext (rest : List Char) : Option (List Char) :=
  let s1 := rest.dropWhile (fun c => c = '/')
  if s1 = [] then none else some (s1.takeWhile (fun c => c ≠ '/'))

/-- Decimal value of a digit run (used by `atoi`). -/
def digitsVal (s : List Char) : Int :=
  s.foldl (fun a c => a * 10 + ((c.toNat : Int) - 48)) 0

/-- C `atoi`: skip whitespace, optional sign, then leading digits (0 if none). -/
def atoiChars (s : List Char) : Int :=
  match s.dropWhile (fun c => c.isWhitespace) with
  | '-' :: rest => -(digitsVal (rest.takeWhile (fun c => c.isDigit)))
  | '+' :: rest => digitsVal (rest.takeWhile (fun c => c.isDigit))
  | s1 => digitsVal (s1.takeWhile (fun c => c.isDigit))

/-- `get_lisp_addr_from_char` (lispd_lib.c:906): classify the family with
`get_afi`, then convert the literal with `inet_pton` (a libc collaborator,
passed in as `pton`); on success the converted bytes are written into the
union (4 bytes for v4, 16 for v6), on failure the afi is reset to `AF_UNSPEC`
and `BAD` is returned.  `la0` is the prior content of the out-parameter. -/
def get_lisp_addr_from_char (pton : Int → List Char → Option (List Nat))
    (address : List Char) (la0 : LispAddr) : Int × LispAddr :=
  let afi := get_afi address
  if afi = AF_INET then
    match pton AF_INET address with
    | some bs => (GOOD, ⟨AF_INET, bs.take 4 ++ la0.bytes.drop 4⟩)
    | none => (BAD, ⟨AF_UNSPEC, la0.bytes⟩)
  else
    match pton AF_INET6 address with
    | some bs => (GOOD, ⟨AF_INET6, bs.take 16⟩)
    | none => (BAD, ⟨AF_UNSPEC, la0.bytes⟩)

/-- `get_lisp_addr_and_mask_from_char` (lispd_lib.c:974): split `addr/len` with
`strtok`, parse the address token, parse the length token with `atoi` into the
`mask` out-parameter, and range-check it: `[1,32]` for a v4 address, `[1,128]`
otherwise.  Returns the code and the two out-parameters. -/
def get_lisp_addr_and_mask_from_char (pton : Int → List Char → Option (List Nat))
    (address : List Char) (la0 : LispAddr) (mask0 : Int) : Int × LispAddr × Int :=
  match strtokFirst address with
  | none => (BAD, la0, mask0)
  | some (tok1, rest) =>
    let res1 := get_lisp_addr_from_char pton tok1 la0
    if res1.1 = BAD then (BAD, res1.2, mask0)
    else
      match strtokNext rest with
      | none => (BAD, res1.2, mask0)
      | some tok2 =>
        let m := atoiChars tok2
        if res1.2.afi = AF_INET then
          if m < 1 ∨ m > 32 then (BAD, res1.2, m) else (GOOD, res1.2, m)
        else
          if m < 1 ∨ m > 128 then (BAD, res1.2, m) else (GOOD, res1.2, m)

/-- Modelled from the spec: a dotted-decimal component for the libc `inet_pton`
collaborator (the libc implementation is not part of `src/`). -/
def parseDec (s : List Char) : Option Nat :=
  if s ≠ [] ∧ s.all (fun c => c.isDigit) then
    some (s.foldl (fun a c => a * 10 + (c.toNat - 48)) 0)
  else none

/-- Modelled from the spec: libc `inet_pton(AF_INET, ...)` — a valid IPv4
literal is four dot-separated decimal components, each at most 255. -/
def inet_pton_v4 (s : List Char) : Option (List Nat) :=
  match (s.splitOn '.').map parseDec with
  | [some a, some b, some c, some d] =>
    if a ≤ 255 ∧ b ≤ 255 ∧ c ≤ 255 ∧ d ≤ 255 then some [a, b, c, d] else none
  | _ => none

/-- Modelled from the spec: the libc `inet_pton` collaborator restricted to the
IPv4 literals needed by the concrete counterexample (IPv6 literal parsing is
not modelled). -/
def inet_pton_model (afi : Int) (s : List Char) : Option (List Nat) :=
  if afi = AF_INET then inet_pton_v4 s else none

/-- The character set the spec's hostname rule allows: alphanumeric, `-`, `.`. -/
def okChar (c : Char) : Bool := c.isAlphanum || c = '-' || c = '.'

/-- No two adjacent dots in a list, also counting the pair formed with the
preceding character `prev`. -/
def noAdjDotsFrom (prev : Char) : List Char → Bool
  | [] => true
  | c :: rest => !(c = '.' && prev = '.') && noAdjDotsFrom c rest

/-- The hostname qualification rule exactly as the claim states it: first
character alphanumeric, at least one interior dot, no two adjacent dots, every
character alphanumeric / `-` / `.`, final character alphabetic. -/
def fqdnClaim (s : List Char) : Bool :=
  (charAt s 0).isAlphanum
  && s.all okChar
  && ((s.drop 1).dropLast.any (fun c => c = '.'))
  && noAdjDotsFrom (Char.ofNat 0) s
  && (s.getLastD (Char.ofNat 0)).isAlpha

/-- The hostname rule as the code actually implements it: all conditions are
applied to the portion of the string strictly before the first `,` (or NUL),
because the scan loop stops there — except that a `:` anywhere in the whole
string rejects.  `t` is that scanned portion (character 0 excluded, as the
loop starts at index 1). -/
def fqdnAmended (s : List Char) : Bool :=
  let t := (s.drop 1).takeWhile (fun c => c ≠ Char.ofNat 0 ∧ c ≠ ',')
  (charAt s 0).isAlphanum
  && !(s.contains ':')
  && t.all okChar
  && noAdjDotsFrom (charAt s 0) t
  && (t.getLastD (charAt s 0)).isAlpha
  && t.any (fun c => c = '.')

/-! ## Helper lemmas -/

/-- `memcmp` over equal-length byte lists returns 0 exactly on equal lists. -/
theorem memcmp_eq_zero_iff : ∀ (xs ys : List Nat), xs.length = ys.length →
    (memcmpBytes xs ys = 0 ↔ xs = ys)
  | [], [], _ => by simp [memcmpBytes]
  | [], _ :: _, h => by simp at h
  | _ :: _, [], h => by simp at h
  | x :: xs, y :: ys, h => by
    have ih := memcmp_eq_zero_iff xs ys (by simpa using h)
    by_cases hxy : x = y
    · subst hxy
      simpa [memcmpBytes] using ih
    · rcases Nat.lt_or_ge x y with hlt | hge
      · simp [memcmpBytes, hlt, hxy]
      · have hgt : y < x := by omega
        simp [memcmpBytes, Nat.not_lt.mpr hge, hgt, hxy]

/-- `cmpResult` maps a comparison to 0 exactly when the comparison was 0. -/
theorem cmpResult_eq_zero_iff (cmp : Int) : cmpResult cmp = 0 ↔ cmp = 0 := by
  unfold cmpResult
  split_ifs with h1 h2 <;> simp [h1]

/-- Taking the first 4 bytes of a stored word plus padding gives the word bytes. -/
theorem take4_wordBytes (v : Nat) (rest : List Nat) :
    (wordBytes v ++ rest).take 4 = wordBytes v := by
  simp [wordBytes]

/-- Reduction of `compare_lisp_addr_t` on two v4-tagged addresses. -/
theorem compare_v4_reduce (xa xb : List Nat) :
    compare_lisp_addr_t (some ⟨AF_INET, xa⟩) (some ⟨AF_INET, xb⟩) =
      cmpResult (memcmpBytes (xa.take 4) (xb.take 4)) := by
  simp [compare_lisp_addr_t]

/-- Reduction of `compare_lisp_addr_t` on two v6-tagged addresses. -/
theorem compare_v6_reduce (xa xb : List Nat) :
    compare_lisp_addr_t (some ⟨AF_INET6, xa⟩) (some ⟨AF_INET6, xb⟩) =
      cmpResult (memcmpBytes (xa.take 16) (xb.take 16)) := by
  simp [compare_lisp_addr_t, AF_INET, AF_INET6]

/-- Comparing two network addresses produced by `get_network_address` at the same
(v4 or v6) family reports 0 exactly on structurally equal results. -/
theorem compare_netaddr_eq_zero_iff (pa pb : LispAddr) (len : Int)
    (haf : pa.afi = pb.afi) (h4 : pa.afi = AF_INET ∨ pa.afi = AF_INET6) :
    (compare_lisp_addr_t (some (get_network_address pa len))
        (some (get_network_address pb len)) = 0 ↔
      get_network_address pa len = get_network_address pb len) := by
  rcases h4 with h | h
  · have hb : pb.afi = AF_INET := haf ▸ h
    have hga : get_network_address pa len = get_network_address_v4 pa len := by
      simp [get_network_address, h]
    have hgb : get_network_address pb len = get_network_address_v4 pb len := by
      simp [get_network_address, hb]
    rw [hga, hgb]
    unfold get_network_address_v4
    rw [compare_v4_reduce, take4_wordBytes, take4_wordBytes, cmpResult_eq_zero_iff,
      memcmp_eq_zero_iff _ _ (by simp [wordBytes])]
    constructor
    · intro hw
      simp only [LispAddr.mk.injEq, true_and]
      exact congrArg (fun l => l ++ List.replicate 12 0) hw
    · intro hw
      have := (LispAddr.mk.injEq _ _ _ _).mp hw
      exact List.append_cancel_right this.2
  · have hb : pb.afi = AF_INET6 := haf ▸ h
    have hga : get_network_address pa len = get_network_address_v6 pa len := by
      simp [get_network_address, h, AF_INET, AF_INET6]
    have hgb : get_network_address pb len = get_network_address_v6 pb len := by
      simp [get_network_address, hb, AF_INET, AF_INET6]
    rw [hga, hgb]
    unfold get_network_address_v6
    have hlen : ∀ y0 y1 y2 y3 : Nat,
        (wordBytes y0 ++ wordBytes y1 ++ wordBytes y2 ++ wordBytes y3).length = 16 := by
      intro y0 y1 y2 y3; simp [wordBytes]
    rw [compare_v6_reduce, cmpResult_eq_zero_iff,
      List.take_of_length_le (by rw [hlen]), List.take_of_length_le (by rw [hlen]),
      memcmp_eq_zero_iff _ _ (by rw [hlen, hlen])]
    simp [LispAddr.mk.injEq]

/-! ## Claim theorems -/

/-- Claim C4: the two AFI translation maps are mutually inverse on the defined
tags: each wire AFI in \x7bNoAddress, IP, IPv6, LCAF\x7d round-trips through
`lisp2inetafi` then `inet2lispafi`, each host family in \x7bUnspecified, V4,
V6, LCAF\x7d round-trips the other way, and Unspecified maps to NoAddress. -/
theorem c4_afi_round_trip :
    inet2lispafi (lisp2inetafi LISP_AFI_NO_ADDR) = LISP_AFI_NO_ADDR ∧
    inet2lispafi (lisp2inetafi LISP_AFI_IP) = LISP_AFI_IP ∧
    inet2lispafi (lisp2inetafi LISP_AFI_IPV6) = LISP_AFI_IPV6 ∧
    inet2lispafi (lisp2inetafi LISP_AFI_LCAF) = LISP_AFI_LCAF ∧
    lisp2inetafi (inet2lispafi AF_UNSPEC) = AF_UNSPEC ∧
    lisp2inetafi (inet2lispafi AF_INET) = AF_INET ∧
    lisp2inetafi (inet2lispafi AF_INET6) = AF_INET6 ∧
    lisp2inetafi (inet2lispafi LISP_AFI_LCAF) = LISP_AFI_LCAF ∧
    inet2lispafi AF_UNSPEC = LISP_AFI_NO_ADDR := by
  decide

/-- Claim C5: the dispatcher invokes no handler and returns success both for a
Map-Register message and for a message whose type tag is not one of the
defined tags. -/
theorem c5_dispatch_ignores (packet : List Nat) (h : Handlers) :
    (byteAt packet 0 / 16 = LISP_MAP_REGISTER →
      process_lisp_ctr_msg (some packet) h = (GOOD, [])) ∧
    (byteAt packet 0 / 16 ≠ LISP_MAP_REQUEST →
     byteAt packet 0 / 16 ≠ LISP_MAP_REPLY →
     byteAt packet 0 / 16 ≠ LISP_MAP_REGISTER →
     byteAt packet 0 / 16 ≠ LISP_MAP_NOTIFY →
     byteAt packet 0 / 16 ≠ LISP_MAP_REFERRAL →
     byteAt packet 0 / 16 ≠ LISP_INFO_NAT →
     byteAt packet 0 / 16 ≠ LISP_ENCAP_CONTROL_TYPE →
      process_lisp_ctr_msg (some packet) h = (GOOD, [])) := by
  constructor
  · intro ht
    simp [process_lisp_ctr_msg, ht, LISP_MAP_REQUEST, LISP_MAP_REPLY, LISP_MAP_REGISTER]
  · intro h1 h2 h3 h4 h5 h6 h7
    simp [process_lisp_ctr_msg, h1, h2, h3, h4, h5, h6, h7]

/-- Witness for C5: a Map-Register datagram (first byte 0x30, type nibble 3)
invokes no handler and yields `GOOD`, even though every handler would fail. -/
theorem c5_dispatch_ignores_w :
    process_lisp_ctr_msg (some [48, 0, 0, 0]) ⟨BAD, BAD, BAD, BAD, BAD⟩ = (GOOD, []) :=
  (c5_dispatch_ignores [48, 0, 0, 0] ⟨BAD, BAD, BAD, BAD, BAD⟩).1 (by decide)

/-- Claim C6: `compare_lisp_addr_t` always returns one of -1 (different
family), 0 (equal), 1 (greater), 2 (less), and any pair of addresses with
different families always yields -1. -/
theorem c6_compare_outcomes :
    (∀ addr1 addr2 : Option LispAddr,
      compare_lisp_addr_t addr1 addr2 = -1 ∨ compare_lisp_addr_t addr1 addr2 = 0 ∨
      compare_lisp_addr_t addr1 addr2 = 1 ∨ compare_lisp_addr_t addr1 addr2 = 2) ∧
    (∀ x y : LispAddr, x.afi ≠ y.afi →
      compare_lisp_addr_t (some x) (some y) = -1) := by
  constructor
  · intro a b
    rcases a with _ | a1
    · left; rcases b with _ | a2 <;> rfl
    · rcases b with _ | a2
      · left; rfl
      · simp only [compare_lisp_addr_t, cmpResult]
        split_ifs <;> omega
  · intro x y hne
    simp [compare_lisp_addr_t, hne]

/-- Witness for C6: a v4 address compared with a v6 address yields -1. -/
theorem c6_compare_outcomes_w :
    compare_lisp_addr_t (some ⟨AF_INET, [1, 2, 3, 4]⟩) (some ⟨AF_INET6, [1, 2, 3, 4]⟩) = -1 :=
  c6_compare_outcomes.2 ⟨AF_INET, [1, 2, 3, 4]⟩ ⟨AF_INET6, [1, 2, 3, 4]⟩ (by decide)

/-- Claim C9: a NULL argument (in either position) makes `compare_lisp_addr_t`
return -1 regardless of the other argument — the same value returned for a
family mismatch, so the two conditions cannot be told apart from the result. -/
theorem c9_null_compare (a : Option LispAddr) :
    compare_lisp_addr_t none a = -1 ∧
    compare_lisp_addr_t a none = -1 ∧
    (∀ x y : LispAddr, x.afi ≠ y.afi →
      compare_lisp_addr_t (some x) (some y) = compare_lisp_addr_t none (some y)) := by
  refine ⟨?_, ?_, ?_⟩
  · cases a <;> rfl
  · cases a <;> rfl
  · intro x y hne
    simp [compare_lisp_addr_t, hne]

/-- Witness for C9: at a concrete cross-family pair the comparison equals the
NULL-argument comparison. -/
theorem c9_null_compare_w :
    compare_lisp_addr_t (some ⟨AF_INET, [1, 2, 3, 4]⟩) (some ⟨AF_INET6, [9, 9, 9, 9]⟩) =
      compare_lisp_addr_t none (some ⟨AF_INET6, [9, 9, 9, 9]⟩) :=
  (c9_null_compare none).2.2 ⟨AF_INET, [1, 2, 3, 4]⟩ ⟨AF_INET6, [9, 9, 9, 9]⟩ (by decide)

/-- Claim C10: for any host family outside \x7bAF_UNSPEC, AF_INET, AF_INET6,
LISP_AFI_LCAF\x7d, `inet2lispafi` returns 0, which is exactly the protocol AFI
for NoAddress and exactly what a successful translation of `AF_UNSPEC`
returns — the two outcomes are indistinguishable by value. -/
theorem c10_unknown_family_zero (f : Int) (h1 : f ≠ AF_UNSPEC) (h2 : f ≠ AF_INET)
    (h3 : f ≠ AF_INET6) (h4 : f ≠ LISP_AFI_LCAF) :
    inet2lispafi f = 0 ∧ inet2lispafi f = LISP_AFI_NO_ADDR ∧
    inet2lispafi f = inet2lispafi AF_UNSPEC := by
  refine ⟨?_, ?_, ?_⟩ <;> simp [inet2lispafi, h1, h2, h3, h4, LISP_AFI_NO_ADDR]

/-- Witness for C10: the unknown family 99 translates to 0 = NoAddress. -/
theorem c10_unknown_family_zero_w :
    inet2lispafi 99 = 0 ∧ inet2lispafi 99 = LISP_AFI_NO_ADDR ∧
    inet2lispafi 99 = inet2lispafi AF_UNSPEC :=
  c10_unknown_family_zero 99 (by decide) (by decide) (by decide) (by decide)

/-- Claim C1: `is_prefix_b_part_of_a` returns false on a family mismatch,
returns false when the outer length exceeds the inner length, and otherwise
(for v4/v6 prefixes) returns true exactly when the network address of B
truncated to the outer length equals the network address of A at that length;
in particular identical prefixes contain themselves. -/
theorem c1_containment (pa pb : LispAddr) (a_len b_len : Int) :
    (pa.afi ≠ pb.afi → is_prefix_b_part_of_a pa a_len pb b_len = FALSE) ∧
    (a_len > b_len → is_prefix_b_part_of_a pa a_len pb b_len = FALSE) ∧
    ((pa.afi = AF_INET ∨ pa.afi = AF_INET6) → pa.afi = pb.afi → a_len ≤ b_len →
      (is_prefix_b_part_of_a pa a_len pb b_len = TRUE ↔
        get_network_address pb a_len = get_network_address pa a_len)) ∧
    ((pa.afi = AF_INET ∨ pa.afi = AF_INET6) →
      is_prefix_b_part_of_a pa a_len pa a_len = TRUE) := by
  refine ⟨?_, ?_, ?_, ?_⟩
  · intro hne
    simp [is_prefix_b_part_of_a, hne]
  · intro hgt
    by_cases hne : pa.afi ≠ pb.afi
    · simp [is_prefix_b_part_of_a, hne]
    · simp [is_prefix_b_part_of_a, hne, hgt]
  · intro h4 haf hle
    unfold is_prefix_b_part_of_a
    rw [if_neg (by simp [haf]), if_neg (by omega)]
    have hiff := compare_netaddr_eq_zero_iff pa pb a_len haf h4
    by_cases hc : compare_lisp_addr_t (some (get_network_address pa a_len))
        (some (get_network_address pb a_len)) = 0
    · rw [if_pos hc]
      exact ⟨fun _ => (hiff.mp hc).symm, fun _ => rfl⟩
    · rw [if_neg hc]
      constructor
      · intro hfe
        exact absurd hfe (by simp [FALSE, TRUE])
      · intro heq
        exact absurd (hiff.mpr heq.symm) hc
  · intro h4
    unfold is_prefix_b_part_of_a
    rw [if_neg (by simp), if_neg (by omega),
      if_pos ((compare_netaddr_eq_zero_iff pa pa a_len rfl h4).mpr rfl)]

/-- Witness for C1: `is_part_of((10.0.0.0,8),(10.1.2.0,24))` is true. -/
theorem c1_containment_w :
    is_prefix_b_part_of_a ⟨AF_INET, [10, 0, 0, 0, 0, 0, 0, 0, 0, 0, 0, 0, 0, 0, 0, 0]⟩ 8
      ⟨AF_INET, [10, 1, 2, 0, 0, 0, 0, 0, 0, 0, 0, 0, 0, 0, 0, 0]⟩ 24 = TRUE :=
  ((c1_containment ⟨AF_INET, [10, 0, 0, 0, 0, 0, 0, 0, 0, 0, 0, 0, 0, 0, 0, 0]⟩
      ⟨AF_INET, [10, 1, 2, 0, 0, 0, 0, 0, 0, 0, 0, 0, 0, 0, 0, 0]⟩ 8 24).2.2.1
    (Or.inl rfl) rfl (by decide)).mpr (by decide)

/-- Claim C3: `extract_lisp_address` reads the 2-byte network-order AFI tag,
translates it, and then: an IPv4 tag copies exactly the 4 following bytes, an
IPv6 tag exactly the 16 following bytes, the no-address tag yields the
Unspecified address consuming no payload and succeeds, the LCAF tag fails
with `ERR_AFI` through the LCAF diagnostic branch, and any other tag fails
with `ERR_AFI` through the unknown-family diagnostic branch. -/
theorem c3_extract_address (ptr : List Nat) (addr0 : LispAddr) :
    ((ntohsBytes ptr : Int) = LISP_AFI_IP →
      extract_lisp_address ptr addr0 =
        ⟨GOOD, ⟨AF_INET, (ptr.drop 2).take 4 ++ addr0.bytes.drop 4⟩, ExtractLog.noLog⟩) ∧
    ((ntohsBytes ptr : Int) = LISP_AFI_IPV6 →
      extract_lisp_address ptr addr0 =
        ⟨GOOD, ⟨AF_INET6, (ptr.drop 2).take 16⟩, ExtractLog.noLog⟩) ∧
    ((ntohsBytes ptr : Int) = LISP_AFI_NO_ADDR →
      extract_lisp_address ptr addr0 =
        ⟨GOOD, ⟨AF_UNSPEC, addr0.bytes⟩, ExtractLog.noLog⟩) ∧
    ((ntohsBytes ptr : Int) = LISP_AFI_LCAF →
      (extract_lisp_address ptr addr0).result = ERR_AFI ∧
      (extract_lisp_address ptr addr0).log = ExtractLog.lcafLog) ∧
    ((ntohsBytes ptr : Int) ≠ LISP_AFI_NO_ADDR → (ntohsBytes ptr : Int) ≠ LISP_AFI_IP →
     (ntohsBytes ptr : Int) ≠ LISP_AFI_IPV6 → (ntohsBytes ptr : Int) ≠ LISP_AFI_LCAF →
      (extract_lisp_address ptr addr0).result = ERR_AFI ∧
      (extract_lisp_address ptr addr0).log = ExtractLog.unknownLog) := by
  refine ⟨?_, ?_, ?_, ?_, ?_⟩
  · intro ht
    have hl : lisp2inetafi (ntohsBytes ptr : Int) = AF_INET := by rw [ht]; decide
    simp [extract_lisp_address, hl]
  · intro ht
    have hl : lisp2inetafi (ntohsBytes ptr : Int) = AF_INET6 := by rw [ht]; decide
    simp [extract_lisp_address, hl, AF_INET, AF_INET6]
  · intro ht
    have hl : lisp2inetafi (ntohsBytes ptr : Int) = AF_UNSPEC := by rw [ht]; decide
    simp [extract_lisp_address, hl, AF_INET, AF_INET6, AF_UNSPEC]
  · intro ht
    have hl : lisp2inetafi (ntohsBytes ptr : Int) = LISP_AFI_LCAF := by rw [ht]; decide
    constructor <;>
      simp [extract_lisp_address, hl, AF_INET, AF_INET6, AF_UNSPEC, LISP_AFI_LCAF]
  · intro h1 h2 h3 h4
    have hl : lisp2inetafi (ntohsBytes ptr : Int) = ERR_AFI := by
      simp [lisp2inetafi, h1, h2, h3, h4]
    constructor <;>
      simp [extract_lisp_address, hl, AF_INET, AF_INET6, AF_UNSPEC, LISP_AFI_LCAF, ERR_AFI]

/-- Witness for C3: a buffer with tag 1 (IPv4) copies the 4 following bytes
into the first 4 union bytes and succeeds. -/
theorem c3_extract_address_w :
    extract_lisp_address [0, 1, 9, 8, 7, 6] ⟨AF_UNSPEC, List.replicate 16 5⟩ =
      ⟨GOOD, ⟨AF_INET, (([0, 1, 9, 8, 7, 6] : List Nat).drop 2).take 4 ++
        (⟨AF_UNSPEC, List.replicate 16 5⟩ : LispAddr).bytes.drop 4⟩, ExtractLog.noLog⟩ :=
  (c3_extract_address [0, 1, 9, 8, 7, 6] ⟨AF_UNSPEC, List.replicate 16 5⟩).1 (by decide)

/-- Every bit below 32 of the all-ones 32-bit mask is set. -/
theorem ffff_testBit_lt : ∀ i : Nat, i < 32 → (0xFFFFFFFF : Nat).testBit i = true := by
  decide

/-- Bit characterization of the v4 mask over the whole parameter range,
checked exhaustively: bit `i` is set exactly when `i` is one of the top
`len` bit positions. -/
theorem mask4_testBit_nat :
    ∀ p : Nat, p < 33 → ∀ i : Nat, i < 32 →
      (mask4 ((p : Nat) : Int)).testBit i = decide (31 - i < p) := by
  decide

/-- A value below 2^32 has no set bits at positions 32 and above. -/
theorem testBit_ge32 (v : Nat) (hv : v < 4294967296) (i : Nat) (hi : 32 ≤ i) :
    v.testBit i = false := by
  apply Nat.testBit_lt_two_pow
  calc v < 4294967296 := hv
    _ = 2 ^ 32 := by norm_num
    _ ≤ 2 ^ i := Nat.pow_le_pow_right (by norm_num) hi

/-- The v4 mask is a 32-bit value. -/
theorem mask4_lt (prefix_length : Int) : mask4 prefix_length < 4294967296 := by
  unfold mask4
  split_ifs
  · exact Nat.mod_lt _ (by norm_num)
  · norm_num

/-- Each word of the v6 mask array is a 32-bit value. -/
theorem mask6_lt (prefix_length : Int) (ctr : Nat) : mask6 prefix_length ctr < 4294967296 := by
  unfold mask6
  split_ifs
  · norm_num
  · exact Nat.mod_lt _ (by norm_num)
  · norm_num

/-- Bit characterization of the v4 mask for lengths in [0,32]. -/
theorem mask4_testBit (len : Int) (h0 : 0 ≤ len) (h1 : len ≤ 32) (i : Nat) (hi : i < 32) :
    ((mask4 len).testBit i = true ↔ 31 - i < len.toNat) := by
  have hcast : ((len.toNat : Nat) : Int) = len := Int.toNat_of_nonneg h0
  have hfin := mask4_testBit_nat len.toNat (by omega) i hi
  rw [hcast] at hfin
  rw [hfin]
  simp

/-- Bit characterization of the v6 per-word masks for lengths in [0,128]:
bit `i` of word `ctr` is set exactly when the global bit position
`32*ctr + (31-i)` (counted from the most significant bit) is below `len`. -/
theorem mask6_testBit (len : Int) (h0 : 0 ≤ len) (h1 : len ≤ 128) (ctr : Nat) (hc : ctr < 4)
    (i : Nat) (hi : i < 32) :
    ((mask6 len ctr).testBit i = true ↔ 32 * ctr + (31 - i) < len.toNat) := by
  unfold mask6
  split_ifs with ha hb
  · have hf := ffff_testBit_lt i hi
    rw [hf]
    constructor
    · intro _
      omega
    · intro _
      rfl
  · obtain ⟨hb1, hb2⟩ := hb
    have hmeq : (0xFFFFFFFF <<< (32 - len % 32).toNat) % 4294967296 = mask4 (len % 32) := by
      unfold mask4
      rw [if_pos hb1]
    rw [hmeq, mask4_testBit (len % 32) (by omega) (by omega) i hi]
    omega
  · rw [Nat.zero_testBit]
    constructor
    · intro h
      exact absurd h (by simp)
    · intro hlt
      exfalso
      by_cases hz : len % 32 = 0
      · omega
      · have hne : (ctr : Int) ≠ len / 32 := fun hc2 => hb ⟨hz, hc2⟩
        omega

/-- Reassembling the 4 stored bytes of a 32-bit value gives the value back. -/
theorem word_wb_head (v : Nat) (rest : List Nat) (hv : v < 4294967296) :
    ntohl4 (wordBytes v ++ rest) = v := by
  simp [ntohl4, wordBytes, byteAt]
  omega

/-- Reading each of the four words stored by four `htonl` writes. -/
theorem word_concat (m0 m1 m2 m3 : Nat) (h0 : m0 < 4294967296) (h1 : m1 < 4294967296)
    (h2 : m2 < 4294967296) (h3 : m3 < 4294967296) :
    word (wordBytes m0 ++ wordBytes m1 ++ wordBytes m2 ++ wordBytes m3) 0 = m0 ∧
    word (wordBytes m0 ++ wordBytes m1 ++ wordBytes m2 ++ wordBytes m3) 1 = m1 ∧
    word (wordBytes m0 ++ wordBytes m1 ++ wordBytes m2 ++ wordBytes m3) 2 = m2 ∧
    word (wordBytes m0 ++ wordBytes m1 ++ wordBytes m2 ++ wordBytes m3) 3 = m3 := by
  refine ⟨?_, ?_, ?_, ?_⟩ <;>
    (simp [word, wordBytes, ntohl4, byteAt]; omega)

/-- Claim C2: for a v4 address and `len` in [0,32], `get_network_address` keeps
exactly the top `len` bits of the 32-bit host-order value (bit `i` of the
result is bit `i` of the input exactly on the top-`len` positions, with the
`len = 0` case giving the all-zero mask); for a v6 address and `len` in
[0,128] it masks the four stored words so that global bit position
`32*ctr + (31-i)` survives exactly when it is below `len`; and the two
concrete examples `192.168.1.130/24 = 192.168.1.0` and
`2001:db8::1234/32 = 2001:db8::` hold. -/
theorem c2_network_address_mask :
    (∀ (x : LispAddr) (len : Int), x.afi = AF_INET → 0 ≤ len → len ≤ 32 →
      (get_network_address x len).afi = AF_INET ∧
      (∀ i : Nat, ((word (get_network_address x len).bytes 0).testBit i = true ↔
        ((word x.bytes 0).testBit i = true ∧ i < 32 ∧ 31 - i < len.toNat)))) ∧
    (∀ (x : LispAddr) (len : Int), x.afi = AF_INET6 → 0 ≤ len → len ≤ 128 →
      (get_network_address x len).afi = AF_INET6 ∧
      (∀ ctr : Nat, ctr < 4 → ∀ i : Nat,
        ((word (get_network_address x len).bytes ctr).testBit i = true ↔
          ((word x.bytes ctr).testBit i = true ∧ i < 32 ∧
            32 * ctr + (31 - i) < len.toNat)))) ∧
    get_network_address ⟨AF_INET, [192, 168, 1, 130, 0, 0, 0, 0, 0, 0, 0, 0, 0, 0, 0, 0]⟩ 24 =
      ⟨AF_INET, [192, 168, 1, 0, 0, 0, 0, 0, 0, 0, 0, 0, 0, 0, 0, 0]⟩ ∧
    get_network_address ⟨AF_INET6, [32, 1, 13, 184, 0, 0, 0, 0, 0, 0, 0, 0, 0, 0, 18, 52]⟩ 32 =
      ⟨AF_INET6, [32, 1, 13, 184, 0, 0, 0, 0, 0, 0, 0, 0, 0, 0, 0, 0]⟩ := by
  refine ⟨?_, ?_, by decide, by decide⟩
  · intro x len hafi h0 h1
    have hg : get_network_address x len = get_network_address_v4 x len := by
      simp [get_network_address, hafi]
    rw [hg]
    refine ⟨rfl, ?_⟩
    intro i
    have hmlt : word x.bytes 0 &&& mask4 len < 4294967296 :=
      lt_of_le_of_lt Nat.and_le_right (mask4_lt len)
    have hw : word (get_network_address_v4 x len).bytes 0 = word x.bytes 0 &&& mask4 len := by
      unfold get_network_address_v4 word
      norm_num
      exact word_wb_head _ _ hmlt
    rw [hw, Nat.testBit_land]
    by_cases hi : i < 32
    · have hm := mask4_testBit len h0 h1 i hi
      rw [Bool.and_eq_true]
      constructor
      · rintro ⟨hwi, hmi⟩
        exact ⟨hwi, hi, hm.mp hmi⟩
      · rintro ⟨hwi, _, hlt⟩
        exact ⟨hwi, hm.mpr hlt⟩
    · have hmf : (mask4 len).testBit i = false := testBit_ge32 _ (mask4_lt len) i (by omega)
      rw [hmf]
      simp [hi]
  · intro x len hafi h0 h1
    have hg : get_network_address x len = get_network_address_v6 x len := by
      simp [get_network_address, hafi, AF_INET, AF_INET6]
    rw [hg]
    refine ⟨rfl, ?_⟩
    intro ctr hc i
    have hmlt : ∀ c : Nat, word x.bytes c &&& mask6 len c < 4294967296 := fun c =>
      lt_of_le_of_lt Nat.and_le_right (mask6_lt len c)
    obtain ⟨w0, w1, w2, w3⟩ :=
      word_concat (word x.bytes 0 &&& mask6 len 0) (word x.bytes 1 &&& mask6 len 1)
        (word x.bytes 2 &&& mask6 len 2) (word x.bytes 3 &&& mask6 len 3)
        (hmlt 0) (hmlt 1) (hmlt 2) (hmlt 3)
    have hw : word (get_network_address_v6 x len).bytes ctr = word x.bytes ctr &&& mask6 len ctr := by
      interval_cases ctr
      · exact w0
      · exact w1
      · exact w2
      · exact w3
    rw [hw, Nat.testBit_land]
    by_cases hi : i < 32
    · have hm := mask6_testBit len h0 h1 ctr hc i hi
      rw [Bool.and_eq_true]
      constructor
      · rintro ⟨hwi, hmi⟩
        exact ⟨hwi, hi, hm.mp hmi⟩
      · rintro ⟨hwi, _, hlt⟩
        exact ⟨hwi, hm.mpr hlt⟩
    · have hmf : (mask6 len ctr).testBit i = false :=
        testBit_ge32 _ (mask6_lt len ctr) i (by omega)
      rw [hmf]
      simp [hi]

/-- Witness for C2: instantiating the v4 clause at 192.168.1.130 with length
24 — the family is preserved and bit 7 of the host-order result (inside the
kept top 24 bits) agrees with the input. -/
theorem c2_network_address_mask_w :
    (get_network_address ⟨AF_INET, [192, 168, 1, 130, 0, 0, 0, 0, 0, 0, 0, 0, 0, 0, 0, 0]⟩ 24).afi
        = AF_INET ∧
    ((word (get_network_address ⟨AF_INET, [192, 168, 1, 130, 0, 0, 0, 0, 0, 0, 0, 0, 0, 0, 0, 0]⟩
        24).bytes 0).testBit 8 = true ↔
      ((word (⟨AF_INET, [192, 168, 1, 130, 0, 0, 0, 0, 0, 0, 0, 0, 0, 0, 0, 0]⟩ :
          LispAddr).bytes 0).testBit 8 = true ∧ 8 < 32 ∧ 31 - 8 < (24 : Int).toNat)) :=
  ⟨(c2_network_address_mask.1 ⟨AF_INET, [192, 168, 1, 130, 0, 0, 0, 0, 0, 0, 0, 0, 0, 0, 0, 0]⟩
      24 rfl (by decide) (by decide)).1,
   (c2_network_address_mask.1 ⟨AF_INET, [192, 168, 1, 130, 0, 0, 0, 0, 0, 0, 0, 0, 0, 0, 0, 0]⟩
      24 rfl (by decide) (by decide)).2 8⟩

/-- Counterexample for C7: the claim says a valid v4 literal with prefix
length 0 (which the claim's range [0,32] includes) parses successfully, but
the code's range check `*mask < 1 || *mask > 32` rejects `1.2.3.4/0`. -/
theorem c7_len_zero_cex :
    (get_lisp_addr_and_mask_from_char inet_pton_model ("1.2.3.4/0".toList)
        ⟨AF_UNSPEC, List.replicate 16 0⟩ 0).1 = BAD := by
  decide

/-- Claim C7 (amended): when the address token is a valid literal (the libc
converter `pton` accepts it), `get_lisp_addr_and_mask_from_char` succeeds
exactly when a length token is present and its `atoi` value is in [1,32] for
a v4 address and in [1,128] otherwise; length 0 and out-of-range lengths are
rejected, as is a missing length token. -/
theorem c7_mask_range (pton : Int → List Char → Option (List Nat))
    (s tok1 rest : List Char) (bs : List Nat) (la0 : LispAddr) (m0 : Int)
    (h1 : strtokFirst s = some (tok1, rest))
    (h2 : pton (get_afi tok1) tok1 = some bs) :
    ((get_lisp_addr_and_mask_from_char pton s la0 m0).1 = GOOD ↔
      ∃ tok2, strtokNext rest = some tok2 ∧
        ((get_afi tok1 = AF_INET ∧ 1 ≤ atoiChars tok2 ∧ atoiChars tok2 ≤ 32) ∨
         (get_afi tok1 ≠ AF_INET ∧ 1 ≤ atoiChars tok2 ∧ atoiChars tok2 ≤ 128))) := by
  by_cases hfa : get_afi tok1 = AF_INET
  · rw [hfa] at h2
    have hred : get_lisp_addr_from_char pton tok1 la0 =
        (GOOD, ⟨AF_INET, bs.take 4 ++ la0.bytes.drop 4⟩) := by
      simp [get_lisp_addr_from_char, hfa, h2]
    rcases hopt : strtokNext rest with _ | tok2
    · have hval : get_lisp_addr_and_mask_from_char pton s la0 m0 =
          (BAD, ⟨AF_INET, bs.take 4 ++ la0.bytes.drop 4⟩, m0) := by
        simp [get_lisp_addr_and_mask_from_char, h1, hred, hopt, GOOD, BAD]
      rw [hval]
      simp [hopt, BAD, GOOD]
    · by_cases hm : atoiChars tok2 < 1 ∨ atoiChars tok2 > 32
      · have hval : get_lisp_addr_and_mask_from_char pton s la0 m0 =
            (BAD, ⟨AF_INET, bs.take 4 ++ la0.bytes.drop 4⟩, atoiChars tok2) := by
          simp [get_lisp_addr_and_mask_from_char, h1, hred, hopt, hm, GOOD, BAD]
        rw [hval]
        constructor
        · intro h
          exact absurd h (by simp [BAD, GOOD])
        · rintro ⟨tok2x, htok, hdis⟩
          exfalso
          injection htok with he
          subst he
          rcases hdis with ⟨_, hge, hle⟩ | ⟨hne, _, _⟩
          · omega
          · exact hne hfa
      · have hval : get_lisp_addr_and_mask_from_char pton s la0 m0 =
            (GOOD, ⟨AF_INET, bs.take 4 ++ la0.bytes.drop 4⟩, atoiChars tok2) := by
          simp [get_lisp_addr_and_mask_from_char, h1, hred, hopt, hm, GOOD, BAD]
        rw [hval]
        constructor
        · intro _
          exact ⟨tok2, rfl, Or.inl ⟨hfa, by omega, by omega⟩⟩
        · intro _
          rfl
  · have hfa6 : get_afi tok1 = AF_INET6 := by
      unfold get_afi at hfa ⊢
      split_ifs at hfa ⊢ with hcol
      · rfl
      · exact absurd rfl hfa
    rw [hfa6] at h2
    have h2x : pton (10 : Int) tok1 = some bs := h2
    have hred : get_lisp_addr_from_char pton tok1 la0 = (GOOD, ⟨AF_INET6, bs.take 16⟩) := by
      simp [get_lisp_addr_from_char, hfa6, h2x, AF_INET, AF_INET6]
    rcases hopt : strtokNext rest with _ | tok2
    · have hval : get_lisp_addr_and_mask_from_char pton s la0 m0 =
          (BAD, ⟨AF_INET6, bs.take 16⟩, m0) := by
        simp [get_lisp_addr_and_mask_from_char, h1, hred, hopt, GOOD, BAD]
      rw [hval]
      simp [hopt, BAD, GOOD]
    · by_cases hm : atoiChars tok2 < 1 ∨ atoiChars tok2 > 128
      · have hval : get_lisp_addr_and_mask_from_char pton s la0 m0 =
            (BAD, ⟨AF_INET6, bs.take 16⟩, atoiChars tok2) := by
          simp [get_lisp_addr_and_mask_from_char, h1, hred, hopt, hm, GOOD, BAD,
            AF_INET, AF_INET6]
        rw [hval]
        constructor
        · intro h
          exact absurd h (by simp [BAD, GOOD])
        · rintro ⟨tok2x, htok, hdis⟩
          exfalso
          injection htok with he
          subst he
          rcases hdis with ⟨heq, _, _⟩ | ⟨_, hge, hle⟩
          · exact hfa heq
          · omega
      · have hval : get_lisp_addr_and_mask_from_char pton s la0 m0 =
            (GOOD, ⟨AF_INET6, bs.take 16⟩, atoiChars tok2) := by
          simp [get_lisp_addr_and_mask_from_char, h1, hred, hopt, hm, GOOD, BAD,
            AF_INET, AF_INET6]
        rw [hval]
        constructor
        · intro _
          exact ⟨tok2, rfl, Or.inr ⟨hfa, by omega, by omega⟩⟩
        · intro _
          rfl

/-- Witness for C7: `10.0.0.0/8` parses successfully (its length token 8 lies
in [1,32]). -/
theorem c7_mask_range_w :
    ((get_lisp_addr_and_mask_from_char inet_pton_model ("10.0.0.0/8".toList)
        ⟨AF_UNSPEC, List.replicate 16 0⟩ 0).1 = GOOD ↔
      ∃ tok2, strtokNext ("/8".toList) = some tok2 ∧
        ((get_afi ("10.0.0.0".toList) = AF_INET ∧
            1 ≤ atoiChars tok2 ∧ atoiChars tok2 ≤ 32) ∨
         (get_afi ("10.0.0.0".toList) ≠ AF_INET ∧
            1 ≤ atoiChars tok2 ∧ atoiChars tok2 ≤ 128))) :=
  c7_mask_range inet_pton_model ("10.0.0.0/8".toList) ("10.0.0.0".toList) ("/8".toList)
    [10, 0, 0, 0] ⟨AF_UNSPEC, List.replicate 16 0⟩ 0 (by decide) (by decide)

/-- The scan loop of `isfqdn`, characterized: it walks exactly the portion of
the suffix before the first NUL or `,`, fails when that portion has a bad
character or two adjacent dots (also counting the previous character), and
otherwise reports the last scanned character and whether a dot was seen. -/
theorem isfqdnScan_eq : ∀ (cs : List Char) (prev : Char) (dot : Bool),
    isfqdnScan cs prev dot =
      (if ((cs.takeWhile (fun c => c ≠ Char.ofNat 0 ∧ c ≠ ',')).all okChar &&
           noAdjDotsFrom prev (cs.takeWhile (fun c => c ≠ Char.ofNat 0 ∧ c ≠ ','))) = true then
         some ((cs.takeWhile (fun c => c ≠ Char.ofNat 0 ∧ c ≠ ',')).getLastD prev,
               dot || (cs.takeWhile (fun c => c ≠ Char.ofNat 0 ∧ c ≠ ',')).any (fun c => c = '.'))
       else none) := by
  intro cs
  induction cs with
  | nil =>
    intro prev dot
    simp [isfqdnScan, noAdjDotsFrom]
  | cons c rest ih =>
    intro prev dot
    have hstep : isfqdnScan (c :: rest) prev dot =
        (if c = Char.ofNat 0 ∨ c = ',' then some (prev, dot)
         else if c = '.' ∧ prev = '.' then none
         else if ¬(c.isAlphanum ∨ c = '-' ∨ c = '.') then none
         else isfqdnScan rest c (dot || c = '.')) := rfl
    by_cases hstop : c = Char.ofNat 0 ∨ c = ','
    · have hpn : ¬(c ≠ Char.ofNat 0 ∧ c ≠ ',') := by tauto
      have htw : (c :: rest).takeWhile (fun x => x ≠ Char.ofNat 0 ∧ x ≠ ',') = [] := by
        simp [List.takeWhile_cons, hpn]
      rw [hstep, if_pos hstop, htw]
      simp [noAdjDotsFrom]
    · have hp : c ≠ Char.ofNat 0 ∧ c ≠ ',' := by tauto
      have htw : (c :: rest).takeWhile (fun x => x ≠ Char.ofNat 0 ∧ x ≠ ',') =
          c :: rest.takeWhile (fun x => x ≠ Char.ofNat 0 ∧ x ≠ ',') := by
        simp [List.takeWhile_cons, hp.1, hp.2]
      rw [hstep, if_neg hstop, htw]
      by_cases hdd : c = '.' ∧ prev = '.'
      · rw [if_pos hdd]
        have hnd : noAdjDotsFrom prev (c :: rest.takeWhile (fun x => x ≠ Char.ofNat 0 ∧ x ≠ ','))
            = false := by
          simp [noAdjDotsFrom, hdd.1, hdd.2]
        rw [hnd]
        simp
      · rw [if_neg hdd]
        by_cases hok : c.isAlphanum ∨ c = '-' ∨ c = '.'
        · rw [if_neg (not_not_intro hok), ih c (dot || c = '.')]
          have hokb : okChar c = true := by
            unfold okChar
            rcases hok with h | h | h <;> simp [h]
          have hnd : (!(c = '.' && prev = '.') : Bool) = true := by
            rcases Classical.em (c = '.') with h | h
            · rcases Classical.em (prev = '.') with h2 | h2
              · exact absurd ⟨h, h2⟩ hdd
              · simp [h2]
            · simp [h]
          simp only [List.all_cons, List.any_cons, List.getLastD_cons, noAdjDotsFrom,
            hokb, hnd, Bool.true_and, Bool.or_assoc]
        · rw [if_pos hok]
          have hokb : okChar c = false := by
            unfold okChar
            push_neg at hok
            simp [hok.1, hok.2.1, hok.2.2]
          simp [List.all_cons, hokb]

/-- Counterexample for C8: the claim requires any string containing characters
other than alphanumerics, `-` and `.` to be rejected, but `isfqdn` stops its
scan at the first `,`, so the string `a.b,%` (containing `,` and `%`) is
accepted.  `fqdnClaim` is exactly the claim's acceptance rule. -/
theorem c8_comma_cex :
    isfqdn ("a.b,%".toList) = TRUE ∧ fqdnClaim ("a.b,%".toList) = false := by
  decide

/-- Claim C8 (amended): `isfqdn` accepts exactly when its conditions hold on
the portion of the string strictly before the first `,` (or NUL): first
character alphanumeric, no `:` anywhere in the whole string, every scanned
character alphanumeric / `-` / `.`, no two adjacent dots among the scanned
characters, the last scanned character alphabetic, and at least one dot among
the scanned characters.  Characters from the first `,` on are otherwise
ignored. -/
theorem c8_fqdn_rule (s : List Char) : isfqdn s = TRUE ↔ fqdnAmended s = true := by
  unfold isfqdn fqdnAmended
  by_cases halnum : (charAt s 0).isAlphanum = true
  · by_cases hcolon : s.contains ':' = true
    · rw [if_pos (Or.inr hcolon)]
      constructor
      · intro h
        exact absurd h (by simp [BAD, TRUE])
      · intro h
        exfalso
        simp only [Bool.and_eq_true] at h
        have hb := h.1.1.1.1.2
        rw [hcolon] at hb
        exact absurd hb (by decide)
    · have hcf : s.contains ':' = false := by
        cases hb : s.contains ':'
        · rfl
        · exact absurd hb hcolon
      have hcb : (!s.contains ':') = true := by rw [hcf]; rfl
      rw [if_neg (fun hor => hor.elim (fun h => h halnum)
        (fun h => by rw [hcf] at h; exact absurd h (by decide)))]
      have hscan := isfqdnScan_eq (s.drop 1) (charAt s 0) false
      by_cases hcond : (((s.drop 1).takeWhile (fun c => c ≠ Char.ofNat 0 ∧ c ≠ ',')).all okChar &&
          noAdjDotsFrom (charAt s 0)
            ((s.drop 1).takeWhile (fun c => c ≠ Char.ofNat 0 ∧ c ≠ ','))) = true
      · rw [if_pos hcond] at hscan
        simp only [hscan]
        rw [Bool.and_eq_true] at hcond
        obtain ⟨hall, hnadj⟩ := hcond
        have hdot0 : charAt s 0 ≠ '.' := by
          intro he
          rw [he] at halnum
          exact absurd halnum (by decide)
        by_cases hal : (((s.drop 1).takeWhile
            (fun c => c ≠ Char.ofNat 0 ∧ c ≠ ',')).getLastD (charAt s 0)).isAlpha = true
        · have hld : ((s.drop 1).takeWhile
              (fun c => c ≠ Char.ofNat 0 ∧ c ≠ ',')).getLastD (charAt s 0) ≠ '.' := by
            intro he
            rw [he] at hal
            exact absurd hal (by decide)
          rw [if_neg (fun hor => hor.elim hdot0 (fun hor2 => hor2.elim hld (fun hn => hn hal)))]
          by_cases hany : ((s.drop 1).takeWhile
              (fun c => c ≠ Char.ofNat 0 ∧ c ≠ ',')).any (fun c => c = '.') = true
          · rw [if_pos (show (false || _) = true by rw [hany]; rfl)]
            constructor
            · intro _
              rw [halnum, hcb, hall, hnadj, hal, hany]
              rfl
            · intro _
              rfl
          · rw [if_neg (fun h => hany (by rwa [Bool.false_or] at h))]
            constructor
            · intro h
              exact absurd h (by simp [FALSE, TRUE])
            · intro h
              exfalso
              simp only [Bool.and_eq_true] at h
              exact hany h.2
        · rw [if_pos (Or.inr (Or.inr hal))]
          constructor
          · intro h
            exact absurd h (by simp [FALSE, TRUE])
          · intro h
            exfalso
            simp only [Bool.and_eq_true] at h
            exact hal h.1.2
      · rw [if_neg hcond] at hscan
        simp only [hscan]
        constructor
        · intro h
          exact absurd h (by simp [FALSE, TRUE])
        · intro h
          exfalso
          simp only [Bool.and_eq_true] at h
          obtain ⟨⟨⟨⟨_, hall⟩, hnadj⟩, _⟩, _⟩ := h
          exact hcond (by rw [hall, hnadj]; rfl)
  · rw [if_pos (Or.inl halnum)]
    constructor
    · intro h
      exact absurd h (by simp [BAD, TRUE])
    · intro h
      exfalso
      simp only [Bool.and_eq_true] at h
      exact halnum h.1.1.1.1.1
